import Mathlib

/-!
Shallow embedding of the core logic of `youtube_description_editor_gui.py`
(YouTube bulk description editor): pattern matching and replacement,
URL extraction and health checking with a cache, batched detail fetching,
and the backup/update/restore orchestration, together with theorems that
settle the specification claims.
-/

namespace YTDesc

/-! ## Python string primitives used by the source -/

/-- Python's substring test `p in t`, on character lists: `p` occurs as a
contiguous run inside `t`.  The empty string is a substring of everything,
matching Python's semantics. -/
def pyIn (p : List Char) : List Char → Bool
  | [] => p.isPrefixOf []
  | c :: rest => p.isPrefixOf (c :: rest) || pyIn p rest

/-- Python's `t.replace(p, r)` for an EMPTY pattern `p`: the replacement is
interleaved before every character and at the end. -/
def replaceEmpty (r : List Char) : List Char → List Char
  | [] => r
  | c :: t => r ++ c :: replaceEmpty r t

/-- Python's `t.replace(p, r)` for a NONEMPTY pattern `p`: scans left to
right, replacing each leftmost non-overlapping occurrence.  The `fuel`
argument only drives structural recursion; each step consumes at least one
character, so `fuel = t.length` always suffices and the zero-fuel branch is
unreachable when called through `pyReplace`. -/
def replaceGo (p r : List Char) : Nat → List Char → List Char
  | _, [] => []
  | 0, t => t
  | fuel + 1, c :: rest =>
    if p.isPrefixOf (c :: rest) then
      r ++ replaceGo p r fuel ((c :: rest).drop p.length)
    else
      c :: replaceGo p r fuel rest

/-- Python's `t.replace(p, r)` (all non-overlapping occurrences, leftmost
first). -/
def pyReplace (t p r : List Char) : List Char :=
  match p with
  | [] => replaceEmpty r t
  | _ :: _ => replaceGo p r t.length t

/-- String-level wrapper for the substring test `p in t`. -/
def strIn (p t : String) : Bool := pyIn p.data t.data

/-- String-level wrapper for `t.replace(p, r)`. -/
def strReplace (t p r : String) : String := String.mk (pyReplace t.data p.data r.data)

/-! ## Pattern processing (`check_video_needs_update`, `process_description`) -/

/-- Embeds `check_video_needs_update(description, find_pattern)`:
returns `(needs_update, issues)` where an issue is recorded iff the pattern
is truthy (nonempty) and occurs in the description. -/
def check_video_needs_update (description find_pattern : String) : Bool × List String :=
  let issues : List String :=
    if find_pattern ≠ "" ∧ strIn find_pattern description then
      ["Contains pattern to replace"]
    else []
  (decide (issues.length > 0), issues)

/-- Embeds `process_description(description, find_pattern, replace_with)`:
returns `(new_description, was_modified, modifications)`; the replacement is
performed only when the pattern is truthy (nonempty) and occurs, and
`was_modified` compares the result against the original text. -/
def process_description (description find_pattern replace_with : String) :
    String × Bool × List String :=
  let original := description
  let step : String × List String :=
    if find_pattern ≠ "" ∧ strIn find_pattern description then
      (strReplace description find_pattern replace_with, ["Replaced pattern"])
    else (description, [])
  (step.1, decide (step.1 ≠ original), step.2)

/-! ## URL extraction (`extract_urls`)

The source uses the regular expression
`https?://[^\s<>"\x27)\]]+[^\s<>"\x27)\].,;:!?]` with `re.findall`.  The
scanner below implements exactly the language of that expression: a scheme
prefix, then a greedy run of body characters of which the last kept
character must not be closing punctuation (the regex engine backtracks over
the trailing `.,;:!?` characters), with at least two characters after the
scheme.  Scanning restarts one character later on failure and right after
the match on success, mirroring `re.findall`. -/

/-- Whitespace for the regex class `\s` (ASCII whitespace as matched by
Python's `re` on these texts). -/
def wsChar (c : Char) : Bool :=
  c = ' ' ∨ c = '\t' ∨ c = '\n' ∨ c = '\r' ∨ c = '\x0b' ∨ c = '\x0c'

/-- The regex body class `[^\s<>"\x27)\]]`. -/
def urlBodyChar (c : Char) : Bool :=
  ¬ (wsChar c ∨ c = '<' ∨ c = '>' ∨ c = '"' ∨ c = '\x27' ∨ c = ')' ∨ c = ']')

/-- The regex final-character class `[^\s<>"\x27)\].,;:!?]`: a body
character that is moreover not closing punctuation. -/
def urlEndChar (c : Char) : Bool :=
  urlBodyChar c ∧ ¬ (c = '.' ∨ c = ',' ∨ c = ';' ∨ c = ':' ∨ c = '!' ∨ c = '?')

/-- Consume the scheme `https://` or `http://` (the regex `https?://`);
returns the consumed characters and the rest. -/
def matchScheme (t : List Char) : Option (List Char × List Char) :=
  let https := "https://".data
  let http := "http://".data
  if https.isPrefixOf t then some (https, t.drop https.length)
  else if http.isPrefixOf t then some (http, t.drop http.length)
  else none

/-- Maximal run of body characters at the front of the text (the greedy
`[...]+` before backtracking). -/
def takeBody : List Char → List Char × List Char
  | [] => ([], [])
  | c :: t =>
    if urlBodyChar c then
      let p := takeBody t
      (c :: p.1, p.2)
    else ([], c :: t)

/-- Backtracking over the greedy run: drop trailing characters until the
last one is in the final-character class. -/
def stripTrailing (l : List Char) : List Char :=
  ((l.reverse.dropWhile fun c => ¬ urlEndChar c)).reverse

/-- Try to match one URL at the very start of the text; on success returns
the matched URL and the unconsumed rest of the text. -/
def matchUrlAt (t : List Char) : Option (List Char × List Char) :=
  match matchScheme t with
  | none => none
  | some (scheme, afterScheme) =>
    let run := takeBody afterScheme
    let core := stripTrailing run.1
    if core.length ≥ 2 then
      some (scheme ++ core, run.1.drop core.length ++ run.2)
    else none

/-- Scanner loop of `re.findall`: try a match at each position, emit the
match and continue after it, else advance one character.  `fuel` bounds the
recursion; every step consumes at least one character, so `t.length`
suffices. -/
def findUrls : Nat → List Char → List (List Char)
  | _, [] => []
  | 0, _ => []
  | fuel + 1, c :: t =>
    match matchUrlAt (c :: t) with
    | some (url, rest) => url :: findUrls fuel rest
    | none => findUrls fuel t

/-- Embeds `extract_urls(text)`: all URL tokens of the text, in order of
appearance, duplicates preserved. -/
def extract_urls (text : String) : List String :=
  (findUrls text.data.length text.data).map String.mk

/-! ## URL health checking (`check_url_status`) -/

/-- Outcome of one `urllib.request.urlopen` call: success with an HTTP
status code, `urllib.error.HTTPError` with a code and reason phrase,
`urllib.error.URLError` with a reason (DNS failure, connection refused,
timeout), or any other exception with its message. -/
inductive ReqResult where
  | ok (code : Nat)
  | httpError (code : Nat) (reason : String)
  | urlError (reason : String)
  | otherExc (msg : String)
deriving DecidableEq

/-- Request methods issued by the prober. -/
inductive Method where
  | head
  | get
deriving DecidableEq

/-- How the network answers a HEAD and a GET request for a given url;
`check_url_status` is parameterised over this behaviour. -/
structure NetBehavior where
  headRes : ReqResult
  getRes : ReqResult
deriving DecidableEq

/-- Python's `str(e)` for the exception results, as seen by the generic
`except Exception` handler of the GET retry. -/
def excStr : ReqResult → String
  | .ok _ => ""
  | .httpError c r => "HTTP Error " ++ toString c ++ ": " ++ r
  | .urlError r => "<urlopen error " ++ r ++ ">"
  | .otherExc m => m

/-- Dictionary lookup on an association list (Python `dict` access). -/
def lookupKV {β : Type} : List (String × β) → String → Option β
  | [], _ => none
  | (k, v) :: t, key => if k = key then some v else lookupKV t key

/-- Dictionary assignment on an association list (Python `d[k] = v`):
overwrites the entry for the key or appends a new one. -/
def setKV {β : Type} : List (String × β) → String → β → List (String × β)
  | [], key, v => [(key, v)]
  | (k, w) :: t, key, v => if k = key then (key, v) :: t else (k, w) :: setKV t key v

/-- The process-lifetime `_url_cache` mapping url to `(status, error)`. -/
abbrev UrlCache : Type := List (String × (Option Nat × Option String))

/-- The try/except body of `check_url_status` (the cache-miss path): issue a
HEAD request; on `HTTPError` 405 retry once with GET; classify failures.
Returns the `(status, error)` result and the list of requests issued. -/
def runProbe (net : String → NetBehavior) (url : String) :
    (Option Nat × Option String) × List Method :=
  match (net url).headRes with
  | .ok c => ((some c, none), [Method.head])
  | .httpError c reason =>
    if c = 405 then
      match (net url).getRes with
      | .ok c2 => ((some c2, none), [Method.head, Method.get])
      | .httpError c2 r2 => ((some c2, some r2), [Method.head, Method.get])
      | e2 => ((none, some (excStr e2)), [Method.head, Method.get])
    else ((some c, some reason), [Method.head])
  | .urlError reason => ((none, some reason), [Method.head])
  | .otherExc m => ((none, some m), [Method.head])

/-- Embeds `check_url_status(url, timeout, use_cache)`: on a cache hit with
`use_cache` enabled, return the cached pair with `from_cache = True` and no
network activity; otherwise run the probe, write the result to the cache
regardless of outcome, and return it with `from_cache = False`.  The value
is `((status, error, from_cache), new cache, requests issued)`. -/
def check_url_status (net : String → NetBehavior) (cache : UrlCache) (url : String)
    (use_cache : Bool) :
    (Option Nat × Option String × Bool) × UrlCache × List Method :=
  match use_cache, lookupKV cache url with
  | true, some r => ((r.1, r.2, true), cache, [])
  | _, _ =>
    let pr := runProbe net url
    ((pr.1.1, pr.1.2, false), setKV cache url pr.1, pr.2)

/-- A sequence of `n` calls of `check_url_status` on the same url with
caching enabled, threading the cache; collects the per-call results, the
final cache, and all requests issued. -/
def probeRun (net : String → NetBehavior) (url : String) :
    UrlCache → Nat → List (Option Nat × Option String × Bool) × UrlCache × List Method
  | cache, 0 => ([], cache, [])
  | cache, n + 1 =>
    let step := check_url_status net cache url true
    let rest := probeRun net url step.2.1 n
    (step.1 :: rest.1, rest.2.1, step.2.2 ++ rest.2.2)

/-- Tests whether a request outcome is the specific `HTTPError 405` that
triggers the GET retry. -/
def is405 : ReqResult → Bool
  | .httpError 405 _ => true
  | _ => false

/-! ## Video data and batched detail fetching
(`get_video_details_batch`, fetch loop of `search_videos`) -/

/-- The `snippet` part of a video resource used by the editor: title,
description, optional tags, category. -/
structure Snippet where
  title : String
  description : String
  tags : Option (List String)
  categoryId : String
deriving DecidableEq

/-- A fetched video detail record (the `videos.list` item; only its
`snippet` is consumed by the paths under study). -/
structure VideoDetails where
  snippet : Snippet
deriving DecidableEq

/-- Embeds `get_video_details_batch(video_ids)` against a remote that
acknowledges ids according to `ack`: with no ids, no request is made;
otherwise ONE request is issued carrying only the FIRST 50 ids
(`video_ids[:50]`), and the response items are keyed by id — ids the remote
does not acknowledge are absent.  Returns the result mapping and the number
of detail requests issued. -/
def get_video_details_batch (ack : String → Option VideoDetails) (video_ids : List String) :
    List (String × VideoDetails) × Nat :=
  if video_ids = [] then ([], 0)
  else (((video_ids.take 50).filterMap fun i => (ack i).map fun s => (i, s)), 1)

/-- The successive slices `videos[batch_start:batch_end]` walked by
`for batch_start in range(0, total, batch_size)` with `batch_size = 50`.
`fuel` only drives structural recursion; each step drops at least one
element, so the caller passes the list length. -/
def chunksGo : Nat → List String → List (List String)
  | _, [] => []
  | 0, _ => []
  | fuel + 1, l => l.take 50 :: chunksGo fuel (l.drop 50)

/-- All batch slices of an id list, in order. -/
def chunksOf50 (l : List String) : List (List String) := chunksGo l.length l

/-- The detail-fetch phase of `search_videos` (and `check_broken_links`):
one `get_video_details_batch` call per 50-id slice, merging the per-batch
mappings; also counts the remote detail requests issued. -/
def fetchDetailsBatched (ack : String → Option VideoDetails) (ids : List String) :
    List (String × VideoDetails) × Nat :=
  (chunksOf50 ids).foldl
    (fun acc c =>
      let b := get_video_details_batch ack c
      (acc.1 ++ b.1, acc.2 + b.2))
    ([], 0)

/-! ## Remote description writes (`update_video_description`) -/

/-- The request body assembled by `update_video_description`. -/
structure UpdateBody where
  id : String
  title : String
  description : String
  tags : List String
  categoryId : String
deriving DecidableEq

/-- Embeds `update_video_description(video_id, video_details, new_description)`:
the body copies `title`, `tags` (defaulting to `[]` when the snapshot has
none) and `categoryId` verbatim from the fetched snapshot and replaces only
the description. -/
def update_video_description (video_id : String) (video_details : VideoDetails)
    (new_description : String) : UpdateBody :=
  let sn := video_details.snippet
  ⟨video_id, sn.title, new_description, sn.tags.getD [], sn.categoryId⟩

/-- The remote applying an update body: the snippet fields are overwritten
with those sent in the body. -/
def applyUpdate (body : UpdateBody) : Snippet :=
  ⟨body.title, body.description, some body.tags, body.categoryId⟩

/-! ## Backup store and update orchestration
(`save_backup`, `restore_from_backup`, `update_selected_videos`) -/

/-- One entry of `description_backups.json`. -/
structure BackupRec where
  title : String
  description : String
  backup_time : Nat
deriving DecidableEq

/-- Embeds `save_backup(video_id, title, old_description)`: load the full
mapping, insert/overwrite the entry for the id with the current time, write
the mapping back. -/
def save_backup (backups : List (String × BackupRec)) (video_id title old_description : String)
    (now : Nat) : List (String × BackupRec) :=
  setKV backups video_id ⟨title, old_description, now⟩

/-- An entry of `videos_needing_update` as consumed by the update path. -/
structure SelVideo where
  id : String
  title : String
  selected : Bool
deriving DecidableEq

/-- Outcome of one `get_video_details` call: an item, `None`, or a raised
exception with its message. -/
inductive FetchRes where
  | ok (d : VideoDetails)
  | notFound
  | raise (msg : String)
deriving DecidableEq

/-- Outcome of the mutating `videos.update` call: success, an `HttpError`
(with its message), or any other exception. -/
inductive UpdRes where
  | ok
  | httpErr (msg : String)
  | raise (msg : String)
deriving DecidableEq

/-- Remote/file-system behaviour for one selected item: the fresh detail
fetch, whether `save_backup` raises, the mutating update outcome, and the
detail fetch and update outcomes seen by a subsequent restore attempt. -/
structure ItemEnv where
  fetch : FetchRes
  backupExc : Option String
  upd : UpdRes
  rFetch : FetchRes
  rUpd : Option String
deriving DecidableEq

/-- Observable effects, in order: a detail fetch, a durable write of a
backup record holding a description, and an attempted mutating remote
update of a description. -/
inductive Ev where
  | fetch (video_id : String)
  | backupWrite (video_id : String) (description : String)
  | mutate (video_id : String) (description : String)
deriving DecidableEq

/-- Embeds `restore_from_backup(youtube_api, video_id)`: look up the backup;
if absent report failure; otherwise fetch current details (an exception
propagates, modeled by `Except.error`), then push the backed-up description
via `update_video_description`, catching any exception as a failure
message.  Also returns the events performed. -/
def restore_from_backup (backups : List (String × BackupRec)) (env : ItemEnv)
    (video_id : String) : Except (String × List Ev) ((Bool × String) × List Ev) :=
  match lookupKV backups video_id with
  | none => .ok ((false, "No backup found for this video"), [])
  | some b =>
    match env.rFetch with
    | .raise m => .error (m, [Ev.fetch video_id])
    | .notFound => .ok ((false, "Could not fetch video details"), [Ev.fetch video_id])
    | .ok _ =>
      match env.rUpd with
      | none => .ok ((true, "Restored successfully"),
          [Ev.fetch video_id, Ev.mutate video_id b.description])
      | some m => .ok ((false, m),
          [Ev.fetch video_id, Ev.mutate video_id b.description])

/-- State threaded through the update loop: the backup file contents and a
clock used for backup timestamps. -/
structure OrchState where
  backups : List (String × BackupRec)
  now : Nat
deriving DecidableEq

/-- Per-item outcome as recorded by `update_selected_videos`: counted as a
success, or counted as an error with the message appended to `errors`. -/
inductive Outcome where
  | success
  | failure (msg : String)
deriving DecidableEq

/-- The loop body of `update_selected_videos` for one selected item:
fetch fresh details (failure or `None` ⇒ record error, no backup, no
mutation); save a backup of the current description BEFORE updating;
compute the replacement; if it changed anything, attempt the mutating
update, and on `HttpError` attempt `restore_from_backup`, reporting
`"Update failed, restored from backup"` on restore success and
`"Update failed, restore also failed: <restore message>"` otherwise; if
nothing changed, count a success.  Returns the new state, the outcome, and
the events performed. -/
def processItem (find_pattern replace_with : String) (st : OrchState) (v : SelVideo)
    (env : ItemEnv) : OrchState × Outcome × List Ev :=
  match env.fetch with
  | .raise m => (st, .failure (v.title ++ ": " ++ m), [Ev.fetch v.id])
  | .notFound => (st, .failure (v.title ++ ": Could not fetch details"), [Ev.fetch v.id])
  | .ok d =>
    let current_desc := d.snippet.description
    match env.backupExc with
    | some m => (st, .failure (v.title ++ ": " ++ m), [Ev.fetch v.id])
    | none =>
      let st1 : OrchState := ⟨save_backup st.backups v.id v.title current_desc st.now, st.now + 1⟩
      let evs0 := [Ev.fetch v.id, Ev.backupWrite v.id current_desc]
      let pd := process_description current_desc find_pattern replace_with
      if pd.2.1 then
        match env.upd with
        | .ok => (st1, .success, evs0 ++ [Ev.mutate v.id pd.1])
        | .raise m => (st1, .failure (v.title ++ ": " ++ m), evs0 ++ [Ev.mutate v.id pd.1])
        | .httpErr _ =>
          match restore_from_backup st1.backups env v.id with
          | .error (m, revs) =>
            (st1, .failure (v.title ++ ": " ++ m), evs0 ++ [Ev.mutate v.id pd.1] ++ revs)
          | .ok ((true, _), revs) =>
            (st1, .failure (v.title ++ ": Update failed, restored from backup"),
              evs0 ++ [Ev.mutate v.id pd.1] ++ revs)
          | .ok ((false, rmsg), revs) =>
            (st1, .failure (v.title ++ ": Update failed, restore also failed: " ++ rmsg),
              evs0 ++ [Ev.mutate v.id pd.1] ++ revs)
      else
        (st1, .success, evs0)

/-- The sequential loop of `update_selected_videos` over the already
selected items, threading the state and collecting outcomes and events. -/
def orchGo (find_pattern replace_with : String) :
    OrchState → List (SelVideo × ItemEnv) → OrchState × List Outcome × List Ev
  | st, [] => (st, [], [])
  | st, (v, env) :: rest =>
    let step := processItem find_pattern replace_with st v env
    let restRun := orchGo find_pattern replace_with step.1 rest
    (restRun.1, step.2.1 :: restRun.2.1, step.2.2 ++ restRun.2.2)

/-- Embeds `update_selected_videos`: filter the selected items and process
them strictly one at a time. -/
def update_selected_videos (find_pattern replace_with : String)
    (videos : List (SelVideo × ItemEnv)) (st : OrchState) :
    OrchState × List Outcome × List Ev :=
  orchGo find_pattern replace_with st (videos.filter fun ve => ve.1.selected)

/-- Safety predicate for an event trace: every attempted mutating update of
an id is preceded by a durable backup write for that same id. -/
def mutCov (evs : List Ev) : Prop :=
  ∀ (i : Nat) (id d : String), evs[i]? = some (Ev.mutate id d) →
    ∃ j : Nat, j < i ∧ ∃ d0, evs[j]? = some (Ev.backupWrite id d0)

/-! ## Helper lemmas -/

/-- Every list is a prefix of itself under `isPrefixOf`. -/
theorem isPrefixOf_self (l : List Char) : l.isPrefixOf l = true := by
  induction l with
  | nil => simp
  | cons c t ih => simp [List.isPrefixOf_cons₂, ih]

/-- A string occurs in any text that ends with it. -/
theorem pyIn_append (p a : List Char) : pyIn p (a ++ p) = true := by
  induction a with
  | nil =>
    cases p with
    | nil => simp [pyIn]
    | cons c t => simp [pyIn, isPrefixOf_self]
  | cons c a ih => simp [pyIn, ih]

/-- Writing a key and then looking it up yields the written value. -/
theorem lookupKV_setKV_self {β : Type} (l : List (String × β)) (k : String) (v : β) :
    lookupKV (setKV l k v) k = some v := by
  induction l with
  | nil => simp [setKV, lookupKV]
  | cons hd t ih =>
    obtain ⟨k1, w⟩ := hd
    by_cases hk : k1 = k <;> simp [setKV, lookupKV, hk, ih]

/-- On a cache miss, `check_url_status` runs the probe, caches its result
and reports `from_cache = False`. -/
theorem check_url_status_miss (net : String → NetBehavior) (cache : UrlCache) (url : String)
    (h : lookupKV cache url = none) :
    check_url_status net cache url true =
      (((runProbe net url).1.1, (runProbe net url).1.2, false),
        setKV cache url (runProbe net url).1, (runProbe net url).2) := by
  simp [check_url_status, h]

/-- On a cache hit, `check_url_status` returns the cached pair with
`from_cache = True`, leaves the cache unchanged and issues no request. -/
theorem check_url_status_hit (net : String → NetBehavior) (cache : UrlCache) (url : String)
    (r : Option Nat × Option String) (h : lookupKV cache url = some r) :
    check_url_status net cache url true = ((r.1, r.2, true), cache, []) := by
  simp [check_url_status, h]

/-- Any number of calls starting from a cache that already holds the url
return the cached pair every time, change nothing and issue no request. -/
theorem probeRun_hit (net : String → NetBehavior) (url : String) (cache : UrlCache)
    (r : Option Nat × Option String) (n : Nat) (h : lookupKV cache url = some r) :
    probeRun net url cache n = (List.replicate n (r.1, r.2, true), cache, []) := by
  induction n with
  | zero => simp [probeRun]
  | succ n ih => simp [probeRun, check_url_status_hit net cache url r h, ih, List.replicate_succ]

/-- Number of batch slices of a list: the ceiling of `length / 50`. -/
theorem chunksGo_length (fuel : Nat) : ∀ l : List String, l.length ≤ fuel →
    (chunksGo fuel l).length = (l.length + 49) / 50 := by
  induction fuel with
  | zero =>
    intro l hl
    have h0 : l = [] := List.eq_nil_of_length_eq_zero (Nat.le_zero.mp hl)
    subst h0; simp [chunksGo]
  | succ fuel ih =>
    intro l hl
    match l with
    | [] => simp [chunksGo]
    | c :: t =>
      have hd : ((c :: t).drop 50).length ≤ fuel := by
        simp only [List.length_drop, List.length_cons] at *; omega
      simp only [chunksGo, List.length_cons, ih _ hd, List.length_drop]
      omega

/-- The batch slices of a list concatenate back to the list. -/
theorem chunksGo_flatten (fuel : Nat) : ∀ l : List String, l.length ≤ fuel →
    (chunksGo fuel l).flatten = l := by
  induction fuel with
  | zero =>
    intro l hl
    have h0 : l = [] := List.eq_nil_of_length_eq_zero (Nat.le_zero.mp hl)
    subst h0; simp [chunksGo]
  | succ fuel ih =>
    intro l hl
    match l with
    | [] => simp [chunksGo]
    | c :: t =>
      have hd : ((c :: t).drop 50).length ≤ fuel := by
        simp only [List.length_drop, List.length_cons] at *; omega
      simp only [chunksGo, List.flatten, ih _ hd, List.take_append_drop]

/-- Every batch slice is nonempty and holds at most 50 ids. -/
theorem chunksGo_mem (fuel : Nat) : ∀ l : List String, l.length ≤ fuel →
    ∀ c ∈ chunksGo fuel l, c ≠ [] ∧ c.length ≤ 50 := by
  induction fuel with
  | zero =>
    intro l hl
    have h0 : l = [] := List.eq_nil_of_length_eq_zero (Nat.le_zero.mp hl)
    subst h0; simp [chunksGo]
  | succ fuel ih =>
    intro l hl c hc
    match l with
    | [] => simp [chunksGo] at hc
    | a :: t =>
      have hd : ((a :: t).drop 50).length ≤ fuel := by
        simp only [List.length_drop, List.length_cons] at *; omega
      simp only [chunksGo, List.mem_cons] at hc
      rcases hc with rfl | hc
      · constructor
        · simp
        · simp [List.length_take]
      · exact ih _ hd c hc

/-- Unfolds the merge loop of `fetchDetailsBatched` into a flat map. -/
theorem fetch_foldl (ack : String → Option VideoDetails) :
    ∀ (cs : List (List String)) (acc : List (String × VideoDetails) × Nat),
    (cs.foldl (fun acc c =>
        let b := get_video_details_batch ack c
        (acc.1 ++ b.1, acc.2 + b.2)) acc) =
      (acc.1 ++ (cs.map fun c => (get_video_details_batch ack c).1).flatten,
        acc.2 + (cs.map fun c => (get_video_details_batch ack c).2).sum) := by
  intro cs
  induction cs with
  | nil => intro acc; simp
  | cons c cs ih =>
    intro acc
    simp [List.foldl_cons, ih, List.map_cons, List.flatten, List.sum_cons,
      List.append_assoc, Nat.add_assoc]

/-- Membership in one batch response: the id was sent (the chunk fits in
one request) and the remote acknowledges it. -/
theorem mem_batch (ack : String → Option VideoDetails) (c : List String) (hc : c.length ≤ 50)
    (id : String) (s : VideoDetails) :
    ((id, s) ∈ (get_video_details_batch ack c).1) ↔ (id ∈ c ∧ ack id = some s) := by
  by_cases h0 : c = []
  · subst h0; simp [get_video_details_batch]
  · simp only [get_video_details_batch, if_neg h0, List.take_of_length_le hc,
      List.mem_filterMap]
    constructor
    · rintro ⟨a, ha, hf⟩
      rcases Option.map_eq_some'.mp hf with ⟨w, hw, heq⟩
      cases heq
      exact ⟨ha, hw⟩
    · rintro ⟨hid, hs⟩
      exact ⟨id, hid, by simp [hs]⟩

/-- A nonempty chunk costs exactly one detail request. -/
theorem batch_requests_one (ack : String → Option VideoDetails) (c : List String)
    (h0 : c ≠ []) : (get_video_details_batch ack c).2 = 1 := by
  simp [get_video_details_batch, h0]

/-- Summing a function that is 1 on every element counts the elements. -/
theorem sum_ones (f : List String → Nat) :
    ∀ cs : List (List String), (∀ c ∈ cs, f c = 1) → (cs.map f).sum = cs.length := by
  intro cs
  induction cs with
  | nil => simp
  | cons c cs ih =>
    intro h
    simp only [List.map_cons, List.sum_cons, h c (by simp), List.length_cons,
      ih fun x hx => h x (by simp [hx])]
    omega

/-- Exhaustive shape analysis of the events one item can produce: a bare
failed fetch, or a fetch followed by the backup write, optionally followed
by the mutation attempt, the restore fetch, and the restore mutation of the
backed-up (pre-mutation) description. -/
theorem processItem_evs (P R : String) (st : OrchState) (v : SelVideo) (env : ItemEnv) :
    (processItem P R st v env).2.2 = [Ev.fetch v.id] ∨
    ∃ dd, env.fetch = .ok dd ∧
      ((processItem P R st v env).2.2 =
          [Ev.fetch v.id, Ev.backupWrite v.id dd.snippet.description] ∨
       (processItem P R st v env).2.2 =
          [Ev.fetch v.id, Ev.backupWrite v.id dd.snippet.description,
            Ev.mutate v.id (process_description dd.snippet.description P R).1] ∨
       (processItem P R st v env).2.2 =
          [Ev.fetch v.id, Ev.backupWrite v.id dd.snippet.description,
            Ev.mutate v.id (process_description dd.snippet.description P R).1,
            Ev.fetch v.id] ∨
       (processItem P R st v env).2.2 =
          [Ev.fetch v.id, Ev.backupWrite v.id dd.snippet.description,
            Ev.mutate v.id (process_description dd.snippet.description P R).1,
            Ev.fetch v.id, Ev.mutate v.id dd.snippet.description]) := by
  rcases hf : env.fetch with ⟨dd⟩ | _ | ⟨m⟩
  · rcases hbe : env.backupExc with _ | ⟨m⟩
    · cases hpd : (process_description dd.snippet.description P R).2.1
      · refine Or.inr ⟨dd, rfl, Or.inl ?_⟩
        simp [processItem, hf, hbe, hpd]
      · rcases hu : env.upd with _ | ⟨m⟩ | ⟨m⟩
        · refine Or.inr ⟨dd, rfl, Or.inr (Or.inl ?_)⟩
          simp [processItem, hf, hbe, hpd, hu]
        · rcases hrf : env.rFetch with ⟨dd2⟩ | _ | ⟨m2⟩
          · rcases hru : env.rUpd with _ | ⟨m3⟩ <;>
            · refine Or.inr ⟨dd, rfl, Or.inr (Or.inr (Or.inr ?_))⟩
              simp [processItem, hf, hbe, hpd, hu, restore_from_backup, save_backup,
                lookupKV_setKV_self, hrf, hru]
          · refine Or.inr ⟨dd, rfl, Or.inr (Or.inr (Or.inl ?_))⟩
            simp [processItem, hf, hbe, hpd, hu, restore_from_backup, save_backup,
              lookupKV_setKV_self, hrf]
          · refine Or.inr ⟨dd, rfl, Or.inr (Or.inr (Or.inl ?_))⟩
            simp [processItem, hf, hbe, hpd, hu, restore_from_backup, save_backup,
              lookupKV_setKV_self, hrf]
        · refine Or.inr ⟨dd, rfl, Or.inr (Or.inl ?_)⟩
          simp [processItem, hf, hbe, hpd, hu]
    · left; simp [processItem, hf, hbe]
  · left; simp [processItem, hf]
  · left; simp [processItem, hf]

/-- Any mutation event produced by one item is preceded, within that item's
own events, by the backup write of the description fetched for that item
before the mutation. -/
theorem processItem_mut_backup (P R : String) (st : OrchState) (v : SelVideo) (env : ItemEnv)
    (i : Nat) (id d : String)
    (h : (processItem P R st v env).2.2[i]? = some (Ev.mutate id d)) :
    ∃ dd, env.fetch = .ok dd ∧ id = v.id ∧
      ∃ j, j < i ∧
        (processItem P R st v env).2.2[j]? =
          some (Ev.backupWrite v.id dd.snippet.description) := by
  rcases processItem_evs P R st v env with hevs | ⟨dd, hf, hevs⟩
  · rw [hevs] at h
    rcases i with _ | i <;> simp at h
  · refine ⟨dd, hf, ?_⟩
    rcases hevs with hevs | hevs | hevs | hevs <;> rw [hevs] at h ⊢
    · rcases i with _ | _ | i <;> simp at h
    · rcases i with _ | _ | _ | i <;> simp at h
      exact ⟨h.1.symm, 1, by omega, by simp⟩
    · rcases i with _ | _ | _ | _ | i <;> simp at h
      exact ⟨h.1.symm, 1, by omega, by simp⟩
    · rcases i with _ | _ | _ | _ | _ | i <;> simp at h
      · exact ⟨h.1.symm, 1, by omega, by simp⟩
      · exact ⟨h.1.symm, 1, by omega, by simp⟩

/-- The backup-before-mutation trace property is preserved by concatenating
traces that each satisfy it. -/
theorem mutCov_append (A B : List Ev) (hA : mutCov A) (hB : mutCov B) : mutCov (A ++ B) := by
  intro i id d h
  by_cases hi : i < A.length
  · rw [List.getElem?_append_left hi] at h
    rcases hA i id d h with ⟨j, hj, d0, hj2⟩
    refine ⟨j, hj, d0, ?_⟩
    rw [List.getElem?_append_left (by omega)]
    exact hj2
  · push_neg at hi
    rw [List.getElem?_append_right hi] at h
    rcases hB (i - A.length) id d h with ⟨j, hj, d0, hj2⟩
    refine ⟨A.length + j, by omega, d0, ?_⟩
    rw [List.getElem?_append_right (by omega)]
    simpa using hj2

/-- One item's events satisfy backup-before-mutation. -/
theorem processItem_mutCov (P R : String) (st : OrchState) (v : SelVideo) (env : ItemEnv) :
    mutCov (processItem P R st v env).2.2 := by
  intro i id d h
  rcases processItem_mut_backup P R st v env i id d h with ⟨dd, hf, hid, j, hj, hbw⟩
  subst hid
  exact ⟨j, hj, dd.snippet.description, hbw⟩

/-- The whole sequential update loop satisfies backup-before-mutation. -/
theorem orchGo_mutCov (P R : String) :
    ∀ (l : List (SelVideo × ItemEnv)) (st : OrchState), mutCov (orchGo P R st l).2.2 := by
  intro l
  induction l with
  | nil => intro st i id d h; simp [orchGo] at h
  | cons ve rest ih =>
    intro st
    obtain ⟨v, env⟩ := ve
    simp only [orchGo]
    exact mutCov_append _ _ (processItem_mutCov P R st v env) (ih _)

/-- After a successful fetch and backup, the item's final state always
carries the freshly written backup record, whatever the update and restore
outcomes were. -/
theorem processItem_state (P R : String) (st : OrchState) (v : SelVideo) (env : ItemEnv)
    (dd : VideoDetails) (hf : env.fetch = .ok dd) (hb : env.backupExc = none) :
    (processItem P R st v env).1 =
      ⟨setKV st.backups v.id ⟨v.title, dd.snippet.description, st.now⟩, st.now + 1⟩ := by
  cases hpd : (process_description dd.snippet.description P R).2.1
  · simp [processItem, hf, hb, hpd, save_backup]
  · rcases hu : env.upd with _ | ⟨m⟩ | ⟨m⟩
    · simp [processItem, hf, hb, hpd, hu, save_backup]
    · rcases hr : restore_from_backup
          (setKV st.backups v.id ⟨v.title, dd.snippet.description, st.now⟩) env v.id with
        ⟨m2, revs⟩ | ⟨⟨b, msg⟩, revs⟩
      · simp [processItem, hf, hb, hpd, hu, save_backup, hr]
      · cases b <;> simp [processItem, hf, hb, hpd, hu, save_backup, hr]
    · simp [processItem, hf, hb, hpd, hu, save_backup]

/-! ## Claim theorems -/

/-- Claim C1 (confirmed): in every run of `update_selected_videos`, an
attempted mutating update of an id is always preceded in the event trace by
a durable backup write for that id; per item the backup written holds the
description fetched for that item before the mutation; and when the fresh
detail fetch fails (item vanished or the fetch raised), the item produces
neither a backup write nor a mutation and leaves the backup store
untouched. -/
theorem backup_before_mutation (P R : String) (videos : List (SelVideo × ItemEnv))
    (st : OrchState) :
    mutCov (update_selected_videos P R videos st).2.2 ∧
    (∀ (st1 : OrchState) (v : SelVideo) (env : ItemEnv) (i : Nat) (id d : String),
      (processItem P R st1 v env).2.2[i]? = some (Ev.mutate id d) →
      ∃ dd, env.fetch = .ok dd ∧ id = v.id ∧
        ∃ j, j < i ∧ (processItem P R st1 v env).2.2[j]? =
          some (Ev.backupWrite v.id dd.snippet.description)) ∧
    (∀ (st1 : OrchState) (v : SelVideo) (env : ItemEnv),
      (env.fetch = .notFound ∨ ∃ m, env.fetch = .raise m) →
      (processItem P R st1 v env).2.2 = [Ev.fetch v.id] ∧
      (processItem P R st1 v env).1 = st1) := by
  refine ⟨orchGo_mutCov P R _ st, processItem_mut_backup P R, ?_⟩
  intro st1 v env hfail
  rcases hfail with hf | ⟨m, hf⟩ <;> simp [processItem, hf]

/-- Witness for C1: a concrete item whose detail fetch returns nothing
produces only the fetch event — no backup, no mutation. -/
theorem backup_before_mutation_witness :
    (processItem "123" "789" ⟨[], 0⟩ ⟨"vidA", "TA", true⟩
        ⟨FetchRes.notFound, none, UpdRes.ok, FetchRes.notFound, none⟩).2.2 =
      [Ev.fetch "vidA"] := by
  have h := backup_before_mutation "123" "789" [] ⟨[], 0⟩
  exact (h.2.2 ⟨[], 0⟩ ⟨"vidA", "TA", true⟩
    ⟨FetchRes.notFound, none, UpdRes.ok, FetchRes.notFound, none⟩ (Or.inl rfl)).1

/-- Claim C2 (counterexample): `get_video_details_batch` given 120 ids, all
acknowledged by the remote, issues exactly ONE request (not three) and its
result omits the acknowledged id at position 60 — the function truncates to
the first 50 ids instead of partitioning. -/
theorem get_video_details_batch_cex :
    ((get_video_details_batch (fun _ => some ⟨⟨"t", "d", none, "22"⟩⟩)
        ((List.range 120).map fun n => "v" ++ toString n)).2 = 1) ∧
    ("v60" ∈ (List.range 120).map fun n => "v" ++ toString n) ∧
    (lookupKV ((get_video_details_batch (fun _ => some ⟨⟨"t", "d", none, "22"⟩⟩)
        ((List.range 120).map fun n => "v" ++ toString n)).1) "v60" = none) := by
  refine ⟨by decide, by decide, by decide⟩

/-- Claim C2 (amended): the chunking lives in the CALLER of
`get_video_details_batch`: the fetch loop of `search_videos`
(`fetchDetailsBatched`) slices the ids into chunks of at most 50, issues
exactly one detail request per chunk (`⌈n/50⌉` in total, so 3 for 120 ids),
and its merged mapping holds exactly the sent ids the remote acknowledges,
omitting every id the remote does not return. -/
theorem fetchDetailsBatched_spec (ack : String → Option VideoDetails) (ids : List String) :
    (fetchDetailsBatched ack ids).2 = (ids.length + 49) / 50 ∧
    ∀ id s, ((id, s) ∈ (fetchDetailsBatched ack ids).1 ↔ id ∈ ids ∧ ack id = some s) := by
  have hlen := chunksGo_length ids.length ids le_rfl
  have hjoin := chunksGo_flatten ids.length ids le_rfl
  have hmem := chunksGo_mem ids.length ids le_rfl
  rw [fetchDetailsBatched, chunksOf50] at *
  rw [fetch_foldl]
  constructor
  · rw [sum_ones _ _ fun c hc => batch_requests_one ack c (hmem c hc).1]
    simpa using hlen
  · intro id s
    rw [List.nil_append, List.mem_flatten]
    constructor
    · rintro ⟨part, hpart, hin⟩
      rcases List.mem_map.mp hpart with ⟨c, hc, rfl⟩
      rcases (mem_batch ack c (hmem c hc).2 id s).mp hin with ⟨hidc, hs⟩
      refine ⟨?_, hs⟩
      rw [← hjoin]
      exact List.mem_flatten.mpr ⟨c, hc, hidc⟩
    · rintro ⟨hid, hs⟩
      rw [← hjoin] at hid
      rcases List.mem_flatten.mp hid with ⟨c, hc, hidc⟩
      exact ⟨_, List.mem_map_of_mem _ hc,
        (mem_batch ack c (hmem c hc).2 id s).mpr ⟨hidc, hs⟩⟩

/-- Witness for C2 (amended): 120 acknowledged ids cost exactly 3 requests
through the fetch loop and the id at position 60 is covered. -/
theorem fetchDetailsBatched_spec_witness :
    (fetchDetailsBatched (fun _ => some ⟨⟨"t", "d", none, "22"⟩⟩)
        ((List.range 120).map fun n => "v" ++ toString n)).2 = 3 ∧
    ("v60", (⟨⟨"t", "d", none, "22"⟩⟩ : VideoDetails)) ∈
      (fetchDetailsBatched (fun _ => some ⟨⟨"t", "d", none, "22"⟩⟩)
        ((List.range 120).map fun n => "v" ++ toString n)).1 := by
  have h := fetchDetailsBatched_spec (fun _ => some ⟨⟨"t", "d", none, "22"⟩⟩)
    ((List.range 120).map fun n => "v" ++ toString n)
  refine ⟨?_, ?_⟩
  · rw [h.1]; decide
  · exact (h.2 "v60" _).mpr ⟨by decide, rfl⟩

/-- Claim C3 (counterexample): when the mutation fails with message `BOOM`
and the restore fails with message `RERR`, the recorded outcome detail is
`"T: Update failed, restore also failed: RERR"` — it contains the restore
error but NOT the original mutation error message. -/
theorem double_failure_detail_cex :
    (processItem "123" "789" ⟨[], 0⟩ ⟨"vid1", "T", true⟩
        ⟨FetchRes.ok ⟨⟨"t", "abc123", none, "22"⟩⟩, none, UpdRes.httpErr "BOOM",
          FetchRes.ok ⟨⟨"t", "abc123", none, "22"⟩⟩, some "RERR"⟩).2.1 =
      Outcome.failure "T: Update failed, restore also failed: RERR" ∧
    strIn "RERR" "T: Update failed, restore also failed: RERR" = true ∧
    strIn "BOOM" "T: Update failed, restore also failed: RERR" = false := by
  refine ⟨by decide, by decide, by decide⟩

/-- Claim C3 (amended): when the mutating update fails with a remote API
error and the restore also fails, the item's outcome is recorded as an
error whose detail is exactly
`"<title>: Update failed, restore also failed: <restore message>"`; it
contains the restore error message but not the original mutation error
message. -/
theorem double_failure_detail (P R : String) (st : OrchState) (v : SelVideo) (env : ItemEnv)
    (dd : VideoDetails) (em rm : String)
    (hf : env.fetch = .ok dd) (hb : env.backupExc = none)
    (hm : (process_description dd.snippet.description P R).2.1 = true)
    (hu : env.upd = .httpErr em)
    (hrf : ∃ dd2, env.rFetch = .ok dd2) (hru : env.rUpd = some rm) :
    (processItem P R st v env).2.1 =
      Outcome.failure (v.title ++ ": Update failed, restore also failed: " ++ rm) ∧
    strIn rm (v.title ++ ": Update failed, restore also failed: " ++ rm) = true := by
  obtain ⟨dd2, hrf⟩ := hrf
  constructor
  · simp [processItem, hf, hb, hm, hu, restore_from_backup, save_backup,
      lookupKV_setKV_self, hrf, hru]
  · rw [strIn]
    have hd : (v.title ++ ": Update failed, restore also failed: " ++ rm).data =
        (v.title ++ ": Update failed, restore also failed: ").data ++ rm.data := by
      simp
    rw [hd]
    exact pyIn_append _ _

/-- Witness for C3 (amended): a concrete double failure yields exactly the
amended outcome message. -/
theorem double_failure_detail_witness :
    (processItem "123" "789" ⟨[], 5⟩ ⟨"vid2", "U", true⟩
        ⟨FetchRes.ok ⟨⟨"u", "xx123yy", none, "10"⟩⟩, none, UpdRes.httpErr "quota",
          FetchRes.ok ⟨⟨"u", "xx123yy", none, "10"⟩⟩, some "refused"⟩).2.1 =
      Outcome.failure "U: Update failed, restore also failed: refused" := by
  have h := double_failure_detail "123" "789" ⟨[], 5⟩ ⟨"vid2", "U", true⟩
    ⟨FetchRes.ok ⟨⟨"u", "xx123yy", none, "10"⟩⟩, none, UpdRes.httpErr "quota",
      FetchRes.ok ⟨⟨"u", "xx123yy", none, "10"⟩⟩, some "refused"⟩
    ⟨⟨"u", "xx123yy", none, "10"⟩⟩ "quota" "refused" rfl rfl (by decide) rfl
    ⟨⟨⟨"u", "xx123yy", none, "10"⟩⟩, rfl⟩ rfl
  exact h.1

/-- Claim C4 (confirmed): starting from a cache that does not hold the url,
a sequence of `check_url_status` calls with caching enabled issues exactly
the first call's request sequence and no other network activity; the first
call writes its result — whatever the outcome, negative included — to the
cache, and every call returns the same `(status, error)` pair as the
first. -/
theorem probe_cached_after_first (net : String → NetBehavior) (cache : UrlCache)
    (url : String) (n : Nat) (h : lookupKV cache url = none) :
    (probeRun net url cache (n + 1)).2.2 = (runProbe net url).2 ∧
    (probeRun net url cache (n + 1)).1 =
      ((runProbe net url).1.1, (runProbe net url).1.2, false) ::
        List.replicate n ((runProbe net url).1.1, (runProbe net url).1.2, true) ∧
    lookupKV (probeRun net url cache (n + 1)).2.1 url = some (runProbe net url).1 ∧
    ∀ r ∈ (probeRun net url cache (n + 1)).1, (r.1, r.2.1) = (runProbe net url).1 := by
  have hstep := check_url_status_miss net cache url h
  have hlook := lookupKV_setKV_self cache url (runProbe net url).1
  have hrest := probeRun_hit net url (setKV cache url (runProbe net url).1)
    (runProbe net url).1 n hlook
  refine ⟨?_, ?_, ?_, ?_⟩ <;>
    simp [probeRun, hstep, hrest, hlook]

/-- Witness for C4: three calls on a url whose probe fails with 404 issue
one HEAD in total; the negative result is cached and returned
identically by the later calls. -/
theorem probe_cached_after_first_witness :
    (probeRun (fun _ => ⟨ReqResult.httpError 404 "Not Found", ReqResult.ok 200⟩)
        "https://u" [] 3).2.2 = [Method.head] ∧
    (probeRun (fun _ => ⟨ReqResult.httpError 404 "Not Found", ReqResult.ok 200⟩)
        "https://u" [] 3).1 =
      [(some 404, some "Not Found", false), (some 404, some "Not Found", true),
        (some 404, some "Not Found", true)] := by
  have h := probe_cached_after_first
    (fun _ => ⟨ReqResult.httpError 404 "Not Found", ReqResult.ok 200⟩) [] "https://u" 2 rfl
  refine ⟨?_, ?_⟩
  · rw [h.1]; decide
  · rw [h.2.1]; decide

/-- Claim C5 (counterexample): with text `"a"`, pattern `"a"`, replacement
`"a"`, the match test returns true while the replacement reports
`changed = false`, so `matches(T,P) = false ⇔ changed = false` fails as
stated. -/
theorem matches_apply_disagree_cex :
    ¬ (((check_video_needs_update "a" "a").1 = false) ↔
       ((process_description "a" "a" "a").2.1 = false)) := by decide

/-- Claim C5 (amended): `changed = false` holds iff the match test is false
OR replacing every occurrence of the pattern happens to leave the text
unchanged (e.g. replacement equal to the pattern); in particular a false
match test still implies `changed = false`. -/
theorem changed_iff_matched_and_replace_ne (T P R : String) :
    (process_description T P R).2.1 = false ↔
      ((check_video_needs_update T P).1 = false ∨ strReplace T P R = T) := by
  by_cases h : P ≠ "" ∧ strIn P T
  · simp [process_description, check_video_needs_update, h]
  · simp [process_description, check_video_needs_update, h]

/-- Claim C6 (confirmed): the prober issues a HEAD first and issues a GET
retry on the same url exactly when the HEAD fails with HTTP status 405;
network-level failures yield no status code and a descriptive message;
HTTP-level failures yield the numeric code and its reason phrase; the
cache-miss path of `check_url_status` returns exactly this probe result. -/
theorem head_then_get_retry_policy (net : String → NetBehavior) (url : String) :
    (runProbe net url).2 =
      (if is405 (net url).headRes then [Method.head, Method.get] else [Method.head]) ∧
    (∀ c, (net url).headRes = .ok c → (runProbe net url).1 = (some c, none)) ∧
    (∀ reason, (net url).headRes = .urlError reason →
      (runProbe net url).1 = (none, some reason)) ∧
    (∀ m, (net url).headRes = .otherExc m → (runProbe net url).1 = (none, some m)) ∧
    (∀ c reason, (net url).headRes = .httpError c reason → c ≠ 405 →
      (runProbe net url).1 = (some c, some reason)) ∧
    (∀ reason c2, (net url).headRes = .httpError 405 reason → (net url).getRes = .ok c2 →
      (runProbe net url).1 = (some c2, none)) ∧
    (∀ reason c2 r2, (net url).headRes = .httpError 405 reason →
      (net url).getRes = .httpError c2 r2 → (runProbe net url).1 = (some c2, some r2)) ∧
    (∀ reason r2, (net url).headRes = .httpError 405 reason →
      (net url).getRes = .urlError r2 →
      (runProbe net url).1 = (none, some ("<urlopen error " ++ r2 ++ ">"))) ∧
    (∀ cache, lookupKV cache url = none →
      (check_url_status net cache url true).1 =
        ((runProbe net url).1.1, (runProbe net url).1.2, false) ∧
      (check_url_status net cache url true).2.2 = (runProbe net url).2) := by
  refine ⟨?_, ?_, ?_, ?_, ?_, ?_, ?_, ?_, ?_⟩
  · rcases hh : (net url).headRes with ⟨c⟩ | ⟨c, reason⟩ | ⟨reason⟩ | ⟨m⟩ <;>
      simp [runProbe, is405, hh]
    rcases eq_or_ne c 405 with rfl | hc
    · rcases hg : (net url).getRes with ⟨c2⟩ | ⟨c2, r2⟩ | ⟨r2⟩ | ⟨m2⟩ <;> simp [hg]
    · simp [hc, is405]
  · intro c hh; simp [runProbe, hh]
  · intro reason hh; simp [runProbe, hh]
  · intro m hh; simp [runProbe, hh]
  · intro c reason hh hc; simp [runProbe, hh, hc]
  · intro reason c2 hh hg; simp [runProbe, hh, hg]
  · intro reason c2 r2 hh hg; simp [runProbe, hh, hg]
  · intro reason r2 hh hg; simp [runProbe, hh, hg, excStr]
  · intro cache hc
    rw [check_url_status_miss net cache url hc]
    exact ⟨rfl, rfl⟩

/-- Witness for C6: a host that rejects HEAD with 405 and then answers the
GET with 403 yields `(403, "Forbidden")` after both requests; a DNS-style
failure yields no status with its message after the HEAD alone. -/
theorem head_then_get_retry_policy_witness :
    (runProbe (fun _ => ⟨ReqResult.httpError 405 "Method Not Allowed",
        ReqResult.httpError 403 "Forbidden"⟩) "u").1 = (some 403, some "Forbidden") ∧
    (runProbe (fun _ => ⟨ReqResult.httpError 405 "Method Not Allowed",
        ReqResult.httpError 403 "Forbidden"⟩) "u").2 = [Method.head, Method.get] ∧
    (runProbe (fun _ => ⟨ReqResult.urlError "getaddrinfo failed", ReqResult.ok 200⟩) "u").1
      = (none, some "getaddrinfo failed") ∧
    (runProbe (fun _ => ⟨ReqResult.urlError "getaddrinfo failed", ReqResult.ok 200⟩) "u").2
      = [Method.head] := by
  have h1 := head_then_get_retry_policy
    (fun _ => ⟨ReqResult.httpError 405 "Method Not Allowed",
      ReqResult.httpError 403 "Forbidden"⟩) "u"
  have h2 := head_then_get_retry_policy
    (fun _ => ⟨ReqResult.urlError "getaddrinfo failed", ReqResult.ok 200⟩) "u"
  obtain ⟨e1, -, -, -, -, -, h7, -, -⟩ := h1
  obtain ⟨e2, -, h3, -, -, -, -, -, -⟩ := h2
  refine ⟨h7 "Method Not Allowed" 403 "Forbidden" rfl rfl, ?_,
    h3 "getaddrinfo failed" rfl, ?_⟩
  · rw [e1]; decide
  · rw [e2]; decide

/-- Claim C7 (confirmed): with the empty pattern, `process_description`
returns the text unchanged with `was_modified = false` and no
modifications, and `check_video_needs_update` reports no match — the empty
pattern never matches. -/
theorem empty_pattern_noop (T R : String) :
    process_description T "" R = (T, false, []) ∧
    check_video_needs_update T "" = (false, []) := by
  constructor <;> simp [process_description, check_video_needs_update]

/-- Claim C8 (confirmed): `extract_urls` on the reference sentence returns
exactly the two urls without the trailing comma and period; and urls are
returned in order of appearance with duplicates preserved. -/
theorem extract_urls_example :
    extract_urls "see https://a.com/x, and https://b.com/y." =
      ["https://a.com/x", "https://b.com/y"] ∧
    extract_urls "go https://a.com/q then https://a.com/q again" =
      ["https://a.com/q", "https://a.com/q"] := by
  refine ⟨by decide, by decide⟩

/-- Claim C9 (confirmed): whenever the fresh detail fetch of an item
succeeds (and the backup write does not raise), the run overwrites the
backup record for that id with the currently live description and a fresh
timestamp — regardless of whether the computed text differs — and when
nothing changed, no mutation event occurs at all; so a second run over an
already-edited item replaces the backup of the original with the edited
text. -/
theorem backup_overwritten_per_run (P R : String) (st : OrchState) (v : SelVideo)
    (env : ItemEnv) (dd : VideoDetails)
    (hf : env.fetch = .ok dd) (hb : env.backupExc = none) :
    lookupKV (processItem P R st v env).1.backups v.id =
      some ⟨v.title, dd.snippet.description, st.now⟩ ∧
    ((process_description dd.snippet.description P R).2.1 = false →
      (processItem P R st v env).2.2 =
        [Ev.fetch v.id, Ev.backupWrite v.id dd.snippet.description]) := by
  constructor
  · rw [processItem_state P R st v env dd hf hb]
    exact lookupKV_setKV_self _ _ _
  · intro hpd
    simp [processItem, hf, hb, hpd]

/-- Witness for C9: processing `vidB` first with live text `"abc123"` and
then again with live text `"abc789"` (the already-edited text, which the
replacement no longer changes) leaves the backup store holding `"abc789"`,
the original `"abc123"` backup having been overwritten, with no mutation
event in the second run. -/
theorem backup_overwritten_per_run_witness :
    lookupKV (processItem "123" "789"
        (processItem "123" "789" ⟨[], 0⟩ ⟨"vidB", "TB", true⟩
          ⟨FetchRes.ok ⟨⟨"t", "abc123", none, "22"⟩⟩, none, UpdRes.ok,
            FetchRes.notFound, none⟩).1
        ⟨"vidB", "TB", true⟩
        ⟨FetchRes.ok ⟨⟨"t", "abc789", none, "22"⟩⟩, none, UpdRes.ok,
          FetchRes.notFound, none⟩).1.backups "vidB" =
      some ⟨"TB", "abc789", 1⟩ ∧
    (processItem "123" "789"
        (processItem "123" "789" ⟨[], 0⟩ ⟨"vidB", "TB", true⟩
          ⟨FetchRes.ok ⟨⟨"t", "abc123", none, "22"⟩⟩, none, UpdRes.ok,
            FetchRes.notFound, none⟩).1
        ⟨"vidB", "TB", true⟩
        ⟨FetchRes.ok ⟨⟨"t", "abc789", none, "22"⟩⟩, none, UpdRes.ok,
          FetchRes.notFound, none⟩).2.2 =
      [Ev.fetch "vidB", Ev.backupWrite "vidB" "abc789"] := by
  have h := backup_overwritten_per_run "123" "789"
    (processItem "123" "789" ⟨[], 0⟩ ⟨"vidB", "TB", true⟩
      ⟨FetchRes.ok ⟨⟨"t", "abc123", none, "22"⟩⟩, none, UpdRes.ok,
        FetchRes.notFound, none⟩).1
    ⟨"vidB", "TB", true⟩
    ⟨FetchRes.ok ⟨⟨"t", "abc789", none, "22"⟩⟩, none, UpdRes.ok,
      FetchRes.notFound, none⟩
    ⟨⟨"t", "abc789", none, "22"⟩⟩ rfl rfl
  refine ⟨?_, h.2 (by decide)⟩
  have hst : (processItem "123" "789" ⟨[], 0⟩ ⟨"vidB", "TB", true⟩
      ⟨FetchRes.ok ⟨⟨"t", "abc123", none, "22"⟩⟩, none, UpdRes.ok,
        FetchRes.notFound, none⟩).1.now = 1 := by decide
  rw [h.1]
  simp [hst]

/-- Claim C10 (confirmed): the body built by `update_video_description`
copies title, tags (empty when the snapshot has none) and category verbatim
from the fetched snapshot and sets only the description, so applying the
write to a live snippet whose tags are present changes nothing but the
description. -/
theorem update_writes_only_description (video_id : String) (dd : VideoDetails) (nd : String) :
    (update_video_description video_id dd nd).title = dd.snippet.title ∧
    (update_video_description video_id dd nd).tags = dd.snippet.tags.getD [] ∧
    (update_video_description video_id dd nd).categoryId = dd.snippet.categoryId ∧
    (update_video_description video_id dd nd).description = nd ∧
    (∀ ts, dd.snippet.tags = some ts →
      applyUpdate (update_video_description video_id dd nd) =
        ⟨dd.snippet.title, nd, dd.snippet.tags, dd.snippet.categoryId⟩) := by
  refine ⟨rfl, rfl, rfl, rfl, ?_⟩
  intro ts hts
  simp [applyUpdate, update_video_description, hts]

/-- Witness for C10: a concrete write changes only the description. -/
theorem update_writes_only_description_witness :
    applyUpdate (update_video_description "id1"
        ⟨⟨"Title", "Desc", some ["a", "b"], "22"⟩⟩ "NewDesc") =
      ⟨"Title", "NewDesc", some ["a", "b"], "22"⟩ := by
  have h := update_writes_only_description "id1"
    ⟨⟨"Title", "Desc", some ["a", "b"], "22"⟩⟩ "NewDesc"
  exact h.2.2.2.2 ["a", "b"] rfl

end YTDesc
